import Mathlib

/-!
Verification of the pagination range calculator (`usePagination`) of this
repository: the `paginationRange` computation, the `setPage` clamp, the
uncontrolled-page validity rule, and a model of the `useMemo` cache that
guards the range computation.

Pages and counts are JavaScript numbers used only at integer values here,
so they are embedded as `Int`.
-/

/-- A token in a pagination range: either a page number or the `DOTS`
ellipsis marker (the source uses the sentinel string `'dots'`). -/
inductive PageToken where
  | page : Int → PageToken
  | dots : PageToken
deriving DecidableEq, Repr

/-- Modelled from the spec: the `range(start, end)` utility imported from
`../../utils` is not present under `src/`; per the spec it returns the
inclusive ascending sequence of integers from `start` to `stop`
("return every page `1..total`", "emit pages ... contiguously",
"the last `boundaries` pages"), and is empty when `stop < start`
(the spec requires `total = 0` to yield the empty range `1..0`). -/
def rangeList (start stop : Int) : List Int :=
  (List.range (stop + 1 - start).toNat).map (fun i => start + (Nat.cast i : Int))

/-- Embedding of the `paginationRange` computation of `usePagination`:
the body of the `useMemo` callback, as a function of `total`, `siblings`,
`boundaries` and the active page. -/
def paginationRange (total siblings boundaries activePage : Int) : List PageToken :=
  let totalPageNumbers := siblings * 2 + 3 + boundaries * 2
  if totalPageNumbers ≥ total then
    (rangeList 1 total).map PageToken.page
  else
    let leftSiblingIndex := max (activePage - siblings) boundaries
    let rightSiblingIndex := min (activePage + siblings) (total - boundaries)
    let shouldShowLeftDots := leftSiblingIndex > boundaries + 2
    let shouldShowRightDots := rightSiblingIndex < total - (boundaries + 1)
    if ¬ shouldShowLeftDots ∧ shouldShowRightDots then
      let leftItemCount := siblings * 2 + boundaries + 2
      (rangeList 1 leftItemCount).map PageToken.page ++ [PageToken.dots] ++
        (rangeList (total - (boundaries - 1)) total).map PageToken.page
    else if shouldShowLeftDots ∧ ¬ shouldShowRightDots then
      let rightItemCount := boundaries + 1 + 2 * siblings
      (rangeList 1 boundaries).map PageToken.page ++ [PageToken.dots] ++
        (rangeList (total - rightItemCount) total).map PageToken.page
    else
      (rangeList 1 boundaries).map PageToken.page ++ [PageToken.dots] ++
        (rangeList leftSiblingIndex rightSiblingIndex).map PageToken.page ++ [PageToken.dots] ++
        (rangeList (total - boundaries + 1) total).map PageToken.page

/-- Embedding of `setPage` (the `goto` operation): clamp a requested page
number against `total`. -/
def setPage (total pageNumber : Int) : Int :=
  if pageNumber ≤ 0 then 1
  else if pageNumber > total then total
  else pageNumber

/-- Embedding of the `rule` passed to `useUncontrolled`:
`(_page) => typeof _page === 'number' && _page <= total`.
A held value of `none` stands for `null`/`undefined` (the `typeof` guard). -/
def pageRule (total : Int) : Option Int → Bool
  | none => false
  | some p => decide (p ≤ total)

/-- Model of the `useMemo` cell guarding `paginationRange`: the cached
dependency key is `(total, siblings, activePage)` — `boundaries` is absent
from the dependency array, exactly as in the source. A render returns the
cached value when the key matches, otherwise recomputes. -/
def renderMemo (total siblings boundaries activePage : Int)
    (st : Option ((Int × Int × Int) × List PageToken)) :
    List PageToken × Option ((Int × Int × Int) × List PageToken) :=
  match st with
  | some (d, v) =>
      if d = (total, siblings, activePage) then (v, some (d, v))
      else
        let v2 := paginationRange total siblings boundaries activePage
        (v2, some ((total, siblings, activePage), v2))
  | none =>
      let v2 := paginationRange total siblings boundaries activePage
      (v2, some ((total, siblings, activePage), v2))

/-- The page numbers of a token sequence, in order, dropping ellipses. -/
def numericTokens (xs : List PageToken) : List Int :=
  xs.filterMap (fun t => match t with
    | PageToken.page n => some n
    | PageToken.dots => none)

/-- The first page number occurring in a token sequence, defaulting to
`total + 1` (the page just past the end) when none remains. -/
def nextNum (total : Int) : List PageToken → Int
  | [] => total + 1
  | PageToken.page n :: _ => n
  | PageToken.dots :: rest => nextNum total rest

/-- For each ellipsis marker in a token sequence, the number of pages it
elides: the count of pages strictly between the page number shown just
before it (`prev`, defaulting to `0` at the start) and the page number
shown just after it (defaulting to `total + 1` at the end). -/
def dotsGaps (total prev : Int) : List PageToken → List Int
  | [] => []
  | PageToken.page n :: rest => dotsGaps total n rest
  | PageToken.dots :: rest => (nextNum total rest - prev - 1) :: dotsGaps total prev rest

theorem length_rangeList (a b : Int) : (rangeList a b).length = (b + 1 - a).toNat := by
  simp [rangeList]

theorem mem_rangeList {a b x : Int} : x ∈ rangeList a b ↔ a ≤ x ∧ x ≤ b := by
  simp only [rangeList, List.mem_map, List.mem_range]
  constructor
  · rintro ⟨i, hi, rfl⟩
    omega
  · rintro ⟨h1, h2⟩
    exact ⟨(x - a).toNat, by omega, by omega⟩

theorem rangeList_eq_nil {a b : Int} (h : b < a) : rangeList a b = [] := by
  simp [rangeList]
  omega

theorem rangeList_cons {a b : Int} (h : a ≤ b) :
    rangeList a b = a :: rangeList (a + 1) b := by
  have hm : (b + 1 - a).toNat = (b + 1 - (a + 1)).toNat + 1 := by omega
  rw [rangeList, hm, List.range_succ_eq_map, List.map_cons, List.map_map, rangeList]
  congr 1
  · simp
  · apply List.map_congr_left
    intro i _
    simp only [Function.comp_apply, Nat.succ_eq_add_one]
    omega

theorem rangeList_concat {a b : Int} (h : a ≤ b) :
    rangeList a b = rangeList a (b - 1) ++ [b] := by
  have hm : (b + 1 - a).toNat = (b - 1 + 1 - a).toNat + 1 := by omega
  rw [rangeList, hm, List.range_succ, List.map_append, List.map_cons, List.map_nil, rangeList]
  congr 2
  omega

theorem head?_rangeList {a b : Int} (h : a ≤ b) : (rangeList a b).head? = some a := by
  rw [rangeList_cons h]
  rfl

theorem getLast?_rangeList {a b : Int} (h : a ≤ b) : (rangeList a b).getLast? = some b := by
  rw [rangeList_concat h]
  simp

theorem getLastD_rangeList {a b : Int} (h : a ≤ b) (d : Int) :
    (rangeList a b).getLastD d = b := by
  rw [List.getLastD_eq_getLast?, getLast?_rangeList h]
  rfl

theorem pairwise_rangeList (a b : Int) :
    List.Pairwise (fun x y => x < y) (rangeList a b) := by
  refine List.Pairwise.map _ (fun i j hij => ?_) (List.pairwise_lt_range _)
  omega

theorem head?_append_left {α : Type} {l r : List α} {a : α} (h : l.head? = some a) :
    (l ++ r).head? = some a := by
  cases l with
  | nil => simp at h
  | cons x xs => simpa using h

theorem getLast?_append_right {α : Type} {l r : List α} {a : α}
    (h : r.getLast? = some a) : (l ++ r).getLast? = some a := by
  rw [List.getLast?_append, h]
  rfl

theorem numericTokens_append (xs ys : List PageToken) :
    numericTokens (xs ++ ys) = numericTokens xs ++ numericTokens ys :=
  List.filterMap_append xs ys _

theorem numericTokens_map_page (l : List Int) :
    numericTokens (l.map PageToken.page) = l := by
  rw [numericTokens, List.filterMap_map]
  exact List.filterMap_some l

theorem numericTokens_dots_cons (xs : List PageToken) :
    numericTokens (PageToken.dots :: xs) = numericTokens xs := rfl

theorem mem_numericTokens {n : Int} {xs : List PageToken} :
    n ∈ numericTokens xs ↔ PageToken.page n ∈ xs := by
  simp only [numericTokens, List.mem_filterMap]
  constructor
  · rintro ⟨t, ht, he⟩
    cases t with
    | page m =>
      simp only [Option.some.injEq] at he
      subst he
      exact ht
    | dots => simp at he
  · intro h
    exact ⟨PageToken.page n, h, rfl⟩

theorem dotsGaps_map_page_append (l : List Int) (rest : List PageToken)
    (total prev : Int) :
    dotsGaps total prev (l.map PageToken.page ++ rest) =
      dotsGaps total (l.getLastD prev) rest := by
  induction l generalizing prev with
  | nil => rfl
  | cons x xs ih =>
    rw [List.map_cons, List.cons_append]
    rw [show dotsGaps total prev (PageToken.page x :: (xs.map PageToken.page ++ rest)) =
      dotsGaps total x (xs.map PageToken.page ++ rest) from rfl]
    rw [ih, List.getLastD_cons]

theorem dotsGaps_dots_cons (total prev : Int) (rest : List PageToken) :
    dotsGaps total prev (PageToken.dots :: rest) =
      (nextNum total rest - prev - 1) :: dotsGaps total prev rest := rfl

theorem nextNum_page_cons (total n : Int) (rest : List PageToken) :
    nextNum total (PageToken.page n :: rest) = n := rfl

theorem nextNum_map_page_append {l : List Int} (h : l ≠ []) (total : Int)
    (rest : List PageToken) :
    nextNum total (l.map PageToken.page ++ rest) = l.headD 0 := by
  cases l with
  | nil => exact absurd rfl h
  | cons x xs => rfl

theorem rangeList_ne_nil {a b : Int} (h : a ≤ b) : rangeList a b ≠ [] := by
  rw [rangeList_cons h]
  simp

theorem headD_rangeList {a b : Int} (h : a ≤ b) (d : Int) :
    (rangeList a b).headD d = a := by
  rw [rangeList_cons h]
  rfl

theorem headD_rangeList_nil {a b : Int} (h : b < a) (d : Int) :
    (rangeList a b).headD d = d := by
  rw [rangeList_eq_nil h]
  rfl

theorem getLastD_rangeList_one {b : Int} (hb : 0 ≤ b) :
    (rangeList 1 b).getLastD 0 = b := by
  rcases lt_or_le b 1 with h | h
  · have hb0 : b = 0 := by omega
    subst hb0
    rw [rangeList_eq_nil (by omega)]
    rfl
  · exact getLastD_rangeList h 0

theorem nextNum_map_page (total : Int) (l : List Int) :
    nextNum total (l.map PageToken.page) = l.headD (total + 1) := by
  cases l <;> rfl

theorem dotsGaps_map_page (total prev : Int) (l : List Int) :
    dotsGaps total prev (l.map PageToken.page) = [] := by
  induction l generalizing prev with
  | nil => rfl
  | cons x xs ih => exact ih x

theorem numericTokens_nil : numericTokens [] = [] := rfl

theorem paginationRange_caseA {total siblings boundaries activePage : Int}
    (h : siblings * 2 + 3 + boundaries * 2 ≥ total) :
    paginationRange total siblings boundaries activePage =
      (rangeList 1 total).map PageToken.page := by
  simp only [paginationRange]
  rw [if_pos h]

theorem paginationRange_caseB {total siblings boundaries activePage : Int}
    (hA : ¬ siblings * 2 + 3 + boundaries * 2 ≥ total)
    (hL : ¬ max (activePage - siblings) boundaries > boundaries + 2)
    (hR : min (activePage + siblings) (total - boundaries) < total - (boundaries + 1)) :
    paginationRange total siblings boundaries activePage =
      (rangeList 1 (siblings * 2 + boundaries + 2)).map PageToken.page ++ [PageToken.dots] ++
        (rangeList (total - (boundaries - 1)) total).map PageToken.page := by
  simp only [paginationRange]
  rw [if_neg hA, if_pos ⟨hL, hR⟩]

theorem paginationRange_caseC {total siblings boundaries activePage : Int}
    (hA : ¬ siblings * 2 + 3 + boundaries * 2 ≥ total)
    (hL : max (activePage - siblings) boundaries > boundaries + 2)
    (hR : ¬ min (activePage + siblings) (total - boundaries) < total - (boundaries + 1)) :
    paginationRange total siblings boundaries activePage =
      (rangeList 1 boundaries).map PageToken.page ++ [PageToken.dots] ++
        (rangeList (total - (boundaries + 1 + 2 * siblings)) total).map PageToken.page := by
  simp only [paginationRange]
  rw [if_neg hA, if_neg (by exact fun hc => hc.1 hL), if_pos ⟨hL, hR⟩]

theorem paginationRange_caseD {total siblings boundaries activePage : Int}
    (hA : ¬ siblings * 2 + 3 + boundaries * 2 ≥ total)
    (hL : max (activePage - siblings) boundaries > boundaries + 2)
    (hR : min (activePage + siblings) (total - boundaries) < total - (boundaries + 1)) :
    paginationRange total siblings boundaries activePage =
      (rangeList 1 boundaries).map PageToken.page ++ [PageToken.dots] ++
        (rangeList (max (activePage - siblings) boundaries)
          (min (activePage + siblings) (total - boundaries))).map PageToken.page ++
        [PageToken.dots] ++
        (rangeList (total - boundaries + 1) total).map PageToken.page := by
  simp only [paginationRange]
  rw [if_neg hA, if_neg (by exact fun hc => hc.1 hL), if_neg (by exact fun hc => hc.2 hR)]

/-- Claim C3, counterexample: the claim asserts that for every `total ≥ 0`
the clamped page is a valid page in `[1, total]`; at `total = 0` and
`page = 1` the code returns `0`, and no value lies in the empty interval
`[1, 0]`. -/
theorem setPage_total_zero_invalid :
    setPage 0 1 = 0 ∧ ¬ (1 ≤ setPage 0 1 ∧ setPage 0 1 ≤ 0) := by decide

/-- Claim C3 (amended): for every `total ≥ 0`, `setPage` returns `1` when
`page ≤ 0`, returns `total` when `page > total`, and returns `page`
unchanged otherwise; in particular `setPage` at `0`, `-5` and `total + 50`
yield `1`, `1` and `total`. The result is a valid page in `[1, total]`
whenever `total ≥ 1` (not when `total = 0`, where the interval is empty). -/
theorem setPage_clamps (total x : Int) (ht : 0 ≤ total) :
    (x ≤ 0 → setPage total x = 1) ∧
    (x > total → setPage total x = total) ∧
    (1 ≤ x → x ≤ total → setPage total x = x) ∧
    setPage total 0 = 1 ∧
    setPage total (-5) = 1 ∧
    setPage total (total + 50) = total ∧
    (1 ≤ total → 1 ≤ setPage total x ∧ setPage total x ≤ total) := by
  have h1 : ∀ y : Int, y ≤ 0 → setPage total y = 1 := by
    intro y hy
    simp only [setPage]
    rw [if_pos hy]
  have h2 : ∀ y : Int, y > total → setPage total y = total := by
    intro y hy
    simp only [setPage]
    rw [if_neg (by omega), if_pos hy]
  have h3 : ∀ y : Int, 1 ≤ y → y ≤ total → setPage total y = y := by
    intro y hy1 hy2
    simp only [setPage]
    rw [if_neg (by omega), if_neg (by omega)]
  refine ⟨h1 x, h2 x, h3 x, h1 0 (by omega), h1 (-5) (by omega),
    h2 (total + 50) (by omega), fun htot => ?_⟩
  rcases le_or_lt x 0 with h | h
  · rw [h1 x h]
    omega
  · rcases le_or_lt x total with h' | h'
    · rw [h3 x (by omega) h']
      omega
    · rw [h2 x (by omega)]
      omega

/-- Claim C3 witness: the amended clamp equations at `total = 7`, `x = 50`. -/
theorem setPage_clamps_witness :
    ((50 : Int) ≤ 0 → setPage 7 50 = 1) ∧
    ((50 : Int) > 7 → setPage 7 50 = 7) ∧
    ((1 : Int) ≤ 50 → (50 : Int) ≤ 7 → setPage 7 50 = 50) ∧
    setPage 7 0 = 1 ∧
    setPage 7 (-5) = 1 ∧
    setPage 7 (7 + 50) = 7 ∧
    ((1 : Int) ≤ 7 → 1 ≤ setPage 7 50 ∧ setPage 7 50 ≤ 7) :=
  setPage_clamps 7 50 (by decide)

/-- Claim C7, counterexample: with `total = 0` the clamp is not idempotent:
`setPage 0 0 = 1` but `setPage 0 1 = 0`. -/
theorem setPage_not_idempotent_total_zero :
    setPage 0 (setPage 0 0) ≠ setPage 0 0 := by decide

/-- Claim C7 (amended): for every `total ≥ 1` and every integer `x`,
applying the `setPage` clamp twice equals applying it once. -/
theorem setPage_idempotent (total x : Int) (ht : 1 ≤ total) :
    setPage total (setPage total x) = setPage total x := by
  unfold setPage
  split
  · rw [if_neg (by omega), if_neg (by omega)]
  · split
    · rw [if_neg (by omega), if_neg (by omega)]
    · rfl

/-- Claim C7 witness: idempotence at `total = 10`, `x = -3`. -/
theorem setPage_idempotent_witness :
    setPage 10 (setPage 10 (-3)) = setPage 10 (-3) :=
  setPage_idempotent 10 (-3) (by decide)

/-- Claim C5: whenever the window `2*siblings + 3 + 2*boundaries` is at
least `total`, the computed range is the dense sequence `1..total` with no
ellipsis marker. -/
theorem paginationRange_dense_when_window_covers
    (total siblings boundaries activePage : Int)
    (ht : 0 ≤ total) (hs : 0 ≤ siblings) (hb : 0 ≤ boundaries)
    (hc1 : 1 ≤ activePage) (hc2 : activePage ≤ total)
    (hw : siblings * 2 + 3 + boundaries * 2 ≥ total) :
    paginationRange total siblings boundaries activePage =
      (rangeList 1 total).map PageToken.page ∧
    PageToken.dots ∉ paginationRange total siblings boundaries activePage := by
  refine ⟨paginationRange_caseA hw, ?_⟩
  rw [paginationRange_caseA hw]
  simp

/-- Claim C5 witness: at `total = 5`, `siblings = 1`, `boundaries = 1`,
`activePage = 3` the window is `7 ≥ 5` and the range is dense. -/
theorem paginationRange_dense_when_window_covers_witness :
    paginationRange 5 1 1 3 = (rangeList 1 5).map PageToken.page ∧
    PageToken.dots ∉ paginationRange 5 1 1 3 :=
  paginationRange_dense_when_window_covers 5 1 1 3 (by decide) (by decide)
    (by decide) (by decide) (by decide) (by decide)

/-- Claim C8: with `total = 0` the computed range is empty, no page lies in
the valid interval `[1, 0]`, and the uncontrolled-state validity rule
rejects every candidate page `≥ 1` (in particular the default initial page
`1`), so the held page reports no valid selection. -/
theorem paginationRange_total_zero (siblings boundaries activePage : Int)
    (hs : 0 ≤ siblings) (hb : 0 ≤ boundaries) :
    paginationRange 0 siblings boundaries activePage = [] ∧
    (∀ p : Int, ¬ (1 ≤ p ∧ p ≤ 0)) ∧
    (∀ p : Int, 1 ≤ p → pageRule 0 (some p) = false) := by
  refine ⟨?_, fun p => by omega, fun p hp => ?_⟩
  · rw [paginationRange_caseA (by omega), rangeList_eq_nil (by omega)]
    rfl
  · simp only [pageRule, decide_eq_false_iff_not]
    omega

/-- Claim C8 witness: the empty range and rejected selection at
`siblings = 1`, `boundaries = 1`, `activePage = 1`. -/
theorem paginationRange_total_zero_witness :
    paginationRange 0 1 1 1 = [] ∧
    (∀ p : Int, ¬ (1 ≤ p ∧ p ≤ 0)) ∧
    (∀ p : Int, 1 ≤ p → pageRule 0 (some p) = false) :=
  paginationRange_total_zero 1 1 1 (by decide) (by decide)

/-- Claim C4: the `useMemo` cache key omits `boundaries`, so a render whose
only changed input is `boundaries` (here from `1` to `0`) returns the stale
range computed for the old `boundaries`, not the range its own four inputs
determine. -/
theorem renderMemo_stale_on_boundaries_change :
    (renderMemo 10 1 0 5 (renderMemo 10 1 1 5 none).2).1 =
      paginationRange 10 1 1 5 ∧
    (renderMemo 10 1 0 5 (renderMemo 10 1 1 5 none).2).1 ≠
      paginationRange 10 1 0 5 := by decide

/-- Claim C9: the active page always appears as a numeric token of the
computed range; it is never elided behind an ellipsis. -/
theorem paginationRange_contains_activePage
    (total siblings boundaries activePage : Int)
    (ht : 1 ≤ total) (hs : 0 ≤ siblings) (hb : 0 ≤ boundaries)
    (hc1 : 1 ≤ activePage) (hc2 : activePage ≤ total) :
    PageToken.page activePage ∈
      paginationRange total siblings boundaries activePage := by
  by_cases hA : siblings * 2 + 3 + boundaries * 2 ≥ total
  · rw [paginationRange_caseA hA]
    exact List.mem_map_of_mem _ (mem_rangeList.2 ⟨hc1, hc2⟩)
  · by_cases hL : max (activePage - siblings) boundaries > boundaries + 2
    · by_cases hR : min (activePage + siblings) (total - boundaries) <
          total - (boundaries + 1)
      · rw [paginationRange_caseD hA hL hR]
        simp only [List.mem_append, List.mem_map, List.mem_singleton, mem_rangeList]
        refine Or.inl (Or.inl (Or.inr ⟨activePage, ⟨?_, ?_⟩, rfl⟩)) <;> omega
      · rw [paginationRange_caseC hA hL hR]
        simp only [List.mem_append, List.mem_map, List.mem_singleton, mem_rangeList]
        refine Or.inr ⟨activePage, ⟨?_, ?_⟩, rfl⟩ <;> omega
    · have hR : min (activePage + siblings) (total - boundaries) <
          total - (boundaries + 1) := by omega
      rw [paginationRange_caseB hA hL hR]
      simp only [List.mem_append, List.mem_map, List.mem_singleton, mem_rangeList]
      exact Or.inl (Or.inl ⟨activePage, ⟨by omega, by omega⟩, rfl⟩)

/-- Claim C9 witness: page `5` appears in the range at
`total = 10`, `siblings = 1`, `boundaries = 1`, `activePage = 5`. -/
theorem paginationRange_contains_activePage_witness :
    PageToken.page 5 ∈ paginationRange 10 1 1 5 :=
  paginationRange_contains_activePage 10 1 1 5 (by decide) (by decide)
    (by decide) (by decide) (by decide)

/-- Claim C10: every numeric token the range computation emits is a page
number in `[1, total]`. -/
theorem paginationRange_tokens_within_bounds
    (total siblings boundaries activePage : Int)
    (ht : 1 ≤ total) (hs : 0 ≤ siblings) (hb : 0 ≤ boundaries)
    (hc1 : 1 ≤ activePage) (hc2 : activePage ≤ total) :
    ∀ n : Int,
      PageToken.page n ∈ paginationRange total siblings boundaries activePage →
        1 ≤ n ∧ n ≤ total := by
  intro n hn
  by_cases hA : siblings * 2 + 3 + boundaries * 2 ≥ total
  · rw [paginationRange_caseA hA] at hn
    simp [mem_rangeList] at hn
    omega
  · by_cases hL : max (activePage - siblings) boundaries > boundaries + 2
    · by_cases hR : min (activePage + siblings) (total - boundaries) <
          total - (boundaries + 1)
      · rw [paginationRange_caseD hA hL hR] at hn
        simp [mem_rangeList] at hn
        omega
      · rw [paginationRange_caseC hA hL hR] at hn
        simp [mem_rangeList] at hn
        omega
    · have hR : min (activePage + siblings) (total - boundaries) <
          total - (boundaries + 1) := by omega
      rw [paginationRange_caseB hA hL hR] at hn
      simp [mem_rangeList] at hn
      omega

/-- Claim C10 witness: every numeric token at
`total = 10`, `siblings = 1`, `boundaries = 1`, `activePage = 5` lies in
`[1, 10]`; instantiated at the token `page 4`. -/
theorem paginationRange_tokens_within_bounds_witness :
    1 ≤ (4 : Int) ∧ (4 : Int) ≤ 10 :=
  paginationRange_tokens_within_bounds 10 1 1 5 (by decide) (by decide)
    (by decide) (by decide) (by decide) 4 (by decide)

/-- Claim C6: the computed range never holds more than
`2*boundaries + 2*siblings + 3` tokens (page numbers plus ellipses). -/
theorem paginationRange_length_bounded
    (total siblings boundaries activePage : Int)
    (ht : 0 ≤ total) (hs : 0 ≤ siblings) (hb : 0 ≤ boundaries)
    (hc1 : 1 ≤ activePage) (hc2 : activePage ≤ total) :
    ((paginationRange total siblings boundaries activePage).length : Int) ≤
      boundaries * 2 + siblings * 2 + 3 := by
  by_cases hA : siblings * 2 + 3 + boundaries * 2 ≥ total
  · rw [paginationRange_caseA hA]
    simp only [List.length_map, length_rangeList]
    omega
  · by_cases hL : max (activePage - siblings) boundaries > boundaries + 2
    · by_cases hR : min (activePage + siblings) (total - boundaries) <
          total - (boundaries + 1)
      · rw [paginationRange_caseD hA hL hR]
        simp only [List.length_append, List.length_map, List.length_singleton,
          length_rangeList]
        omega
      · rw [paginationRange_caseC hA hL hR]
        simp only [List.length_append, List.length_map, List.length_singleton,
          length_rangeList]
        omega
    · have hR : min (activePage + siblings) (total - boundaries) <
          total - (boundaries + 1) := by omega
      rw [paginationRange_caseB hA hL hR]
      simp only [List.length_append, List.length_map, List.length_singleton,
        length_rangeList]
      omega

/-- Claim C6 witness: the bound at
`total = 10`, `siblings = 1`, `boundaries = 1`, `activePage = 5`. -/
theorem paginationRange_length_bounded_witness :
    ((paginationRange 10 1 1 5).length : Int) ≤ 1 * 2 + 1 * 2 + 3 :=
  paginationRange_length_bounded 10 1 1 5 (by decide) (by decide) (by decide)
    (by decide) (by decide)

/-- Claim C1, counterexample: at `total = 10`, `siblings = 1`,
`boundaries = 0`, `currentPage = 5` — inputs the claim admits — the
computed range is `[dots, 4, 5, 6, dots]`: its first token is not the page
number `1` and its last token is not the page number `10`. -/
theorem paginationRange_ends_fail_boundaries_zero :
    ¬ ((paginationRange 10 1 0 5).head? = some (PageToken.page 1) ∧
       (paginationRange 10 1 0 5).getLast? = some (PageToken.page 10)) := by
  decide

/-- Claim C1 (amended): for every `total ≥ 1`, `siblings ≥ 0`,
`boundaries ≥ 1` and `currentPage ∈ [1, total]`, the numeric tokens of the
computed range are strictly increasing, its first token is the page number
`1` and its last token is the page number `total` (with `boundaries = 0`
the range can begin or end with an ellipsis instead). -/
theorem paginationRange_strict_mono_ends
    (total siblings boundaries activePage : Int)
    (ht : 1 ≤ total) (hs : 0 ≤ siblings) (hb : 1 ≤ boundaries)
    (hc1 : 1 ≤ activePage) (hc2 : activePage ≤ total) :
    List.Pairwise (fun x y => x < y)
      (numericTokens (paginationRange total siblings boundaries activePage)) ∧
    (paginationRange total siblings boundaries activePage).head? =
      some (PageToken.page 1) ∧
    (paginationRange total siblings boundaries activePage).getLast? =
      some (PageToken.page total) := by
  by_cases hA : siblings * 2 + 3 + boundaries * 2 ≥ total
  · rw [paginationRange_caseA hA]
    refine ⟨?_, ?_, ?_⟩
    · rw [numericTokens_map_page]
      exact pairwise_rangeList 1 total
    · rw [rangeList_cons ht]
      rfl
    · rw [rangeList_concat ht, List.map_append]
      simp
  · by_cases hL : max (activePage - siblings) boundaries > boundaries + 2
    · by_cases hR : min (activePage + siblings) (total - boundaries) <
          total - (boundaries + 1)
      · rw [paginationRange_caseD hA hL hR]
        refine ⟨?_, ?_, ?_⟩
        · simp only [numericTokens_append, numericTokens_map_page,
            numericTokens_dots_cons, numericTokens_nil, List.append_nil,
            List.nil_append, List.append_assoc]
          rw [List.pairwise_append]
          refine ⟨pairwise_rangeList _ _, ?_, ?_⟩
          · rw [List.pairwise_append]
            refine ⟨pairwise_rangeList _ _, pairwise_rangeList _ _, ?_⟩
            intro x hx y hy
            rw [mem_rangeList] at hx hy
            omega
          · intro x hx y hy
            rw [mem_rangeList] at hx
            rw [List.mem_append, mem_rangeList, mem_rangeList] at hy
            rcases hy with hy | hy <;> omega
        · apply head?_append_left
          apply head?_append_left
          apply head?_append_left
          apply head?_append_left
          rw [rangeList_cons hb]
          rfl
        · apply getLast?_append_right
          rw [rangeList_concat (show total - boundaries + 1 ≤ total by omega),
            List.map_append]
          simp
      · rw [paginationRange_caseC hA hL hR]
        refine ⟨?_, ?_, ?_⟩
        · simp only [numericTokens_append, numericTokens_map_page,
            numericTokens_dots_cons, numericTokens_nil, List.append_nil,
            List.nil_append, List.append_assoc]
          rw [List.pairwise_append]
          refine ⟨pairwise_rangeList _ _, pairwise_rangeList _ _, ?_⟩
          intro x hx y hy
          rw [mem_rangeList] at hx hy
          omega
        · apply head?_append_left
          apply head?_append_left
          rw [rangeList_cons hb]
          rfl
        · apply getLast?_append_right
          rw [rangeList_concat
            (show total - (boundaries + 1 + 2 * siblings) ≤ total by omega),
            List.map_append]
          simp
    · have hR : min (activePage + siblings) (total - boundaries) <
          total - (boundaries + 1) := by omega
      rw [paginationRange_caseB hA hL hR]
      refine ⟨?_, ?_, ?_⟩
      · simp only [numericTokens_append, numericTokens_map_page,
          numericTokens_dots_cons, numericTokens_nil, List.append_nil,
          List.nil_append, List.append_assoc]
        rw [List.pairwise_append]
        refine ⟨pairwise_rangeList _ _, pairwise_rangeList _ _, ?_⟩
        intro x hx y hy
        rw [mem_rangeList] at hx hy
        omega
      · apply head?_append_left
        apply head?_append_left
        rw [rangeList_cons (show (1 : Int) ≤ siblings * 2 + boundaries + 2 by omega)]
        rfl
      · apply getLast?_append_right
        rw [rangeList_concat (show total - (boundaries - 1) ≤ total by omega),
          List.map_append]
        simp

/-- Claim C1 witness: strict increase and the `1 .. total` endpoints at
`total = 10`, `siblings = 1`, `boundaries = 1`, `activePage = 5`. -/
theorem paginationRange_strict_mono_ends_witness :
    List.Pairwise (fun x y => x < y) (numericTokens (paginationRange 10 1 1 5)) ∧
    (paginationRange 10 1 1 5).head? = some (PageToken.page 1) ∧
    (paginationRange 10 1 1 5).getLast? = some (PageToken.page 10) :=
  paginationRange_strict_mono_ends 10 1 1 5 (by decide) (by decide) (by decide)
    (by decide) (by decide)

/-- Claim C2: every ellipsis marker in a computed range elides at least two
consecutive pages: the count of pages strictly between the page number
shown before the marker (`0` when the marker opens the sequence) and the
page number shown after it (`total + 1` when the marker closes it) is
always at least `2`. -/
theorem paginationRange_dots_gap_ge_two
    (total siblings boundaries activePage : Int)
    (ht : 1 ≤ total) (hs : 0 ≤ siblings) (hb : 0 ≤ boundaries)
    (hc1 : 1 ≤ activePage) (hc2 : activePage ≤ total) :
    ∀ g ∈ dotsGaps total 0 (paginationRange total siblings boundaries activePage),
      2 ≤ g := by
  by_cases hA : siblings * 2 + 3 + boundaries * 2 ≥ total
  · rw [paginationRange_caseA hA, dotsGaps_map_page]
    simp
  · by_cases hL : max (activePage - siblings) boundaries > boundaries + 2
    · by_cases hR : min (activePage + siblings) (total - boundaries) <
          total - (boundaries + 1)
      · have hlr : max (activePage - siblings) boundaries ≤
            min (activePage + siblings) (total - boundaries) := by omega
        rw [paginationRange_caseD hA hL hR]
        simp only [List.append_assoc, List.singleton_append, List.cons_append,
          List.nil_append]
        rw [dotsGaps_map_page_append, getLastD_rangeList_one hb,
          dotsGaps_dots_cons, nextNum_map_page_append (rangeList_ne_nil hlr),
          headD_rangeList hlr, dotsGaps_map_page_append,
          getLastD_rangeList hlr, dotsGaps_dots_cons, dotsGaps_map_page,
          nextNum_map_page]
        rcases le_or_lt 1 boundaries with hb1 | hb1
        · rw [headD_rangeList (by omega)]
          simp only [List.mem_cons, List.not_mem_nil, or_false]
          rintro g (rfl | rfl) <;> omega
        · rw [headD_rangeList_nil (by omega)]
          simp only [List.mem_cons, List.not_mem_nil, or_false]
          rintro g (rfl | rfl) <;> omega
      · rw [paginationRange_caseC hA hL hR]
        simp only [List.append_assoc, List.singleton_append, List.cons_append,
          List.nil_append]
        rw [dotsGaps_map_page_append, getLastD_rangeList_one hb,
          dotsGaps_dots_cons, dotsGaps_map_page, nextNum_map_page,
          headD_rangeList (show total - (boundaries + 1 + 2 * siblings) ≤ total
            by omega)]
        simp only [List.mem_singleton]
        rintro g rfl
        omega
    · have hR : min (activePage + siblings) (total - boundaries) <
          total - (boundaries + 1) := by omega
      rw [paginationRange_caseB hA hL hR]
      simp only [List.append_assoc, List.singleton_append, List.cons_append,
          List.nil_append]
      rw [dotsGaps_map_page_append,
        getLastD_rangeList (show (1 : Int) ≤ siblings * 2 + boundaries + 2
          by omega),
        dotsGaps_dots_cons, dotsGaps_map_page, nextNum_map_page]
      rcases le_or_lt 1 boundaries with hb1 | hb1
      · rw [headD_rangeList (by omega)]
        simp only [List.mem_singleton]
        rintro g rfl
        omega
      · rw [headD_rangeList_nil (by omega)]
        simp only [List.mem_singleton]
        rintro g rfl
        omega

/-- Claim C2 witness: at `total = 10`, `siblings = 1`, `boundaries = 1`,
`activePage = 5` the range `[1, dots, 4, 5, 6, dots, 10]` elides the gaps
`2..3` and `7..9`, of sizes `2` and `3`. -/
theorem paginationRange_dots_gap_ge_two_witness :
    (dotsGaps 10 0 (paginationRange 10 1 1 5) = [2, 3]) ∧
    ∀ g ∈ dotsGaps 10 0 (paginationRange 10 1 1 5), 2 ≤ g :=
  ⟨by decide, paginationRange_dots_gap_ge_two 10 1 1 5 (by decide) (by decide)
    (by decide) (by decide) (by decide)⟩
